import Mathlib

/-!
A shallow embedding of the Converso CLI module execution bridge
(`pkg/bridge/contracts.go`, the bridge half of
`internal/commands/youtube.go`) and of the plugin registry
(`PluginRegistry.LoadPlugins` / `loadModule`).

Modelling conventions:
* Go `interface{}` values carried inside JSON maps are modelled by the
  `Json` inductive; numbers are modelled by `Rat` (Go `float64`, with
  integer fields requiring an integral number, as `encoding/json` does
  when unmarshalling into `int64`).
* `time.Time` values are modelled by an integer timestamp on the same
  clock that drives deadlines; the Go wire rendering of a time is
  abstracted to a JSON number of that integer.
* Serialization is modelled at the JSON-value level: `ToJSON` produces
  the JSON value that `json.Marshal` would print, and the `FromJSON`
  functions consume a parsed JSON value, with `Option Json` standing
  for a wire line (`none` is a line that is not syntactically valid
  JSON, so every unmarshal of it fails).
* `json.Unmarshal` semantics for a struct target: a JSON `null` or an
  absent field leaves the zero value, an unknown field is ignored, a
  type mismatch is an error, a non-object (and non-null) document is
  an error.
-/

namespace Converso

/-- JSON values: the model of dynamic `interface{}` data on the wire. -/
inductive Json where
  | null
  | bool (b : Bool)
  | num (q : Rat)
  | str (s : String)
  | arr (elems : List Json)
  | obj (fields : List (String × Json))

/-- `ProgressEvent` from `pkg/bridge/contracts.go` (`Timestamp` modelled
as an integer clock value). -/
structure ProgressEvent where
  stage : String
  current : Int
  total : Int
  percentage : Rat
  message : String
  timestamp : Int
deriving DecidableEq

/-- `ModuleResponse` from `pkg/bridge/contracts.go`. -/
structure ModuleResponse where
  success : Bool
  data : List (String × Json)
  error : String
  progress : Option ProgressEvent

/-- `ModuleRequest` from `pkg/bridge/contracts.go`. -/
structure ModuleRequest where
  command : String
  args : List (String × Json)
  authToken : String
  deviceToken : String
  timeout : Int

/-- `ModuleManifest` from `pkg/bridge/contracts.go`. -/
structure ModuleManifest where
  name : String
  version : String
  description : String
  commands : List String
  dependencies : List String
  author : String
  license : String

/-- `BridgeError` from `pkg/bridge/contracts.go`. -/
structure BridgeError where
  code : String
  message : String
deriving DecidableEq

def ErrInvalidRequest (msg : String) : BridgeError := ⟨"INVALID_REQUEST", msg⟩

def ErrInvalidResponse (msg : String) : BridgeError := ⟨"INVALID_RESPONSE", msg⟩

def ErrInvalidProgress (msg : String) : BridgeError := ⟨"INVALID_PROGRESS", msg⟩

def ErrModuleNotFound (msg : String) : BridgeError := ⟨"MODULE_NOT_FOUND", msg⟩

def ErrModuleTimeout (msg : String) : BridgeError := ⟨"MODULE_TIMEOUT", msg⟩

def ErrModuleError (msg : String) : BridgeError := ⟨"MODULE_ERROR", msg⟩

/-- `(*ModuleRequest).Validate`: the Go method mutates the receiver
(defaulting `Timeout` to 300 when non-positive), so the model returns
the possibly-updated request. -/
def ModuleRequest.Validate (r : ModuleRequest) : Except BridgeError ModuleRequest :=
  if r.command = "" then .error (ErrInvalidRequest "command is required")
  else if r.timeout ≤ 0 then
    .ok ⟨r.command, r.args, r.authToken, r.deviceToken, 300⟩
  else .ok r

/-- `(*ModuleResponse).Validate`. -/
def ModuleResponse.Validate (r : ModuleResponse) : Except BridgeError Unit :=
  if r.success = false ∧ r.error = "" then
    .error (ErrInvalidResponse "error message required for failed response")
  else .ok ()

/-- `(*ProgressEvent).Validate`, checks in source order. -/
def ProgressEvent.Validate (p : ProgressEvent) : Except BridgeError Unit :=
  if p.stage = "" then .error (ErrInvalidProgress "stage is required")
  else if p.total < 0 then .error (ErrInvalidProgress "total must be non-negative")
  else if p.current < 0 then .error (ErrInvalidProgress "current must be non-negative")
  else if p.total < p.current then .error (ErrInvalidProgress "current cannot exceed total")
  else if p.percentage < 0 ∨ 100 < p.percentage then
    .error (ErrInvalidProgress "percentage must be between 0 and 100")
  else .ok ()

/-- The error code of a validation result, `none` when it succeeded. -/
def errCode {α : Type} : Except BridgeError α → Option String
  | .ok _ => none
  | .error e => some e.code

/-! ## JSON codec (model of `encoding/json` marshalling of the structs) -/

/-- Unmarshal a JSON field into a Go `string`: absent and `null` leave
the zero value. -/
def asString : Option Json → Except String String
  | none => .ok ""
  | some .null => .ok ""
  | some (.str s) => .ok s
  | some _ => .error "cannot unmarshal into string"

/-- Unmarshal a JSON field into a Go `bool`. -/
def asBool : Option Json → Except String Bool
  | none => .ok false
  | some .null => .ok false
  | some (.bool b) => .ok b
  | some _ => .error "cannot unmarshal into bool"

/-- Unmarshal a JSON field into a Go integer (`int`/`int64`):
`encoding/json` rejects a fractional number. -/
def asInt : Option Json → Except String Int
  | none => .ok 0
  | some .null => .ok 0
  | some (.num q) => if q.den = 1 then .ok q.num else .error "cannot unmarshal number into int64"
  | some _ => .error "cannot unmarshal into int64"

/-- Unmarshal a JSON field into a Go `float64`. -/
def asFloat : Option Json → Except String Rat
  | none => .ok 0
  | some .null => .ok 0
  | some (.num q) => .ok q
  | some _ => .error "cannot unmarshal into float64"

/-- Unmarshal a JSON field into a Go `map[string]interface{}`. -/
def asObjMap : Option Json → Except String (List (String × Json))
  | none => .ok []
  | some .null => .ok []
  | some (.obj fields) => .ok fields
  | some _ => .error "cannot unmarshal into map"

/-- Unmarshal a JSON field into a Go `[]string`. -/
def asStringList : Option Json → Except String (List String)
  | none => .ok []
  | some .null => .ok []
  | some (.arr elems) =>
    elems.foldr (fun e acc =>
      match e, acc with
      | .str s, .ok rest => .ok (s :: rest)
      | _, .ok _ => .error "cannot unmarshal array element into string"
      | _, .error msg => .error msg) (.ok [])
  | some _ => .error "cannot unmarshal into string slice"

/-- Field lookup on a JSON object value. -/
def Json.getField (j : Json) (key : String) : Option Json :=
  match j with
  | .obj fields => fields.lookup key
  | _ => none

/-- `(*ProgressEvent).ToJSON` = `json.Marshal`: fields in struct order. -/
def ProgressEvent.ToJSON (p : ProgressEvent) : Json :=
  .obj [("stage", .str p.stage), ("current", .num (Rat.ofInt p.current)),
    ("total", .num (Rat.ofInt p.total)), ("percentage", .num p.percentage),
    ("message", .str p.message), ("timestamp", .num (Rat.ofInt p.timestamp))]

/-- `ProgressEventFromJSON` = `json.Unmarshal` into `ProgressEvent`. -/
def ProgressEventFromJSON (j : Json) : Except String ProgressEvent :=
  match j with
  | .null => .ok ⟨"", 0, 0, 0, "", 0⟩
  | .obj fields =>
    match asString (fields.lookup "stage"), asInt (fields.lookup "current"),
        asInt (fields.lookup "total"), asFloat (fields.lookup "percentage"),
        asString (fields.lookup "message"), asInt (fields.lookup "timestamp") with
    | .ok stage, .ok current, .ok total, .ok percentage, .ok message, .ok ts =>
      .ok ⟨stage, current, total, percentage, message, ts⟩
    | _, _, _, _, _, _ => .error "cannot unmarshal ProgressEvent field"
  | _ => .error "cannot unmarshal into ProgressEvent"

/-- Unmarshal the optional `progress` field (a `*ProgressEvent`). -/
def asOptProgress : Option Json → Except String (Option ProgressEvent)
  | none => .ok none
  | some .null => .ok none
  | some j =>
    match ProgressEventFromJSON j with
    | .ok p => .ok (some p)
    | .error msg => .error msg

/-- `(*ModuleResponse).ToJSON` = `json.Marshal`: the `progress` field is
tagged `omitempty`, so a `nil` pointer is omitted. -/
def ModuleResponse.ToJSON (r : ModuleResponse) : Json :=
  .obj ([("success", .bool r.success), ("data", .obj r.data), ("error", .str r.error)] ++
    (match r.progress with
     | none => []
     | some p => [("progress", p.ToJSON)]))

/-- `ModuleResponseFromJSON` = `json.Unmarshal` into `ModuleResponse`. -/
def ModuleResponseFromJSON (j : Json) : Except String ModuleResponse :=
  match j with
  | .null => .ok ⟨false, [], "", none⟩
  | .obj fields =>
    match asBool (fields.lookup "success"), asObjMap (fields.lookup "data"),
        asString (fields.lookup "error"), asOptProgress (fields.lookup "progress") with
    | .ok success, .ok data, .ok err, .ok progress => .ok ⟨success, data, err, progress⟩
    | _, _, _, _ => .error "cannot unmarshal ModuleResponse field"
  | _ => .error "cannot unmarshal into ModuleResponse"

/-- `(*ModuleRequest).ToJSON` = `json.Marshal`: fields in struct order. -/
def ModuleRequest.ToJSON (r : ModuleRequest) : Json :=
  .obj [("command", .str r.command), ("args", .obj r.args),
    ("auth_token", .str r.authToken), ("device_token", .str r.deviceToken),
    ("timeout", .num (Rat.ofInt r.timeout))]

/-- `ModuleRequestFromJSON` = `json.Unmarshal` into `ModuleRequest`. -/
def ModuleRequestFromJSON (j : Json) : Except String ModuleRequest :=
  match j with
  | .null => .ok ⟨"", [], "", "", 0⟩
  | .obj fields =>
    match asString (fields.lookup "command"), asObjMap (fields.lookup "args"),
        asString (fields.lookup "auth_token"), asString (fields.lookup "device_token"),
        asInt (fields.lookup "timeout") with
    | .ok command, .ok args, .ok authToken, .ok deviceToken, .ok timeout =>
      .ok ⟨command, args, authToken, deviceToken, timeout⟩
    | _, _, _, _, _ => .error "cannot unmarshal ModuleRequest field"
  | _ => .error "cannot unmarshal into ModuleRequest"

/-- `ModuleManifestFromJSON` = `json.Unmarshal` into `ModuleManifest`. -/
def ModuleManifestFromJSON (j : Json) : Except String ModuleManifest :=
  match j with
  | .null => .ok ⟨"", "", "", [], [], "", ""⟩
  | .obj fields =>
    match asString (fields.lookup "name"), asString (fields.lookup "version"),
        asString (fields.lookup "description"), asStringList (fields.lookup "commands"),
        asStringList (fields.lookup "dependencies"), asString (fields.lookup "author"),
        asString (fields.lookup "license") with
    | .ok name, .ok version, .ok description, .ok commands, .ok deps, .ok author, .ok license =>
      .ok ⟨name, version, description, commands, deps, author, license⟩
    | _, _, _, _, _, _, _ => .error "cannot unmarshal ModuleManifest field"
  | _ => .error "cannot unmarshal into ModuleManifest"

/-! ## Process launcher and wire model

`launchPythonProcess` (in the bridge half of
`internal/commands/youtube.go`) creates pipes for all three standard
streams of the child and returns `(cmd, stdin, stderr)`: the write end
it hands back is the child's standard input, and the read end it hands
back is the child's standard error (the stdout pipe is created but
never returned or read). -/

/-- A standard stream of the child process. -/
inductive StdStream where
  | stdin
  | stdout
  | stderr
deriving DecidableEq

/-- What `launchPythonProcess` wires up and returns. -/
structure LaunchResult where
  pipesCreated : List StdStream
  writeSink : StdStream
  readSource : StdStream

/-- `launchPythonProcess`: pipes for stdin, stdout and stderr are
created; the returned `io.WriteCloser` is the stdin pipe and the
returned `io.ReadCloser` is the stderr pipe. -/
def launchPythonProcess : LaunchResult :=
  ⟨[.stdin, .stdout, .stderr], .stdin, .stderr⟩

/-- One item written to the child's input stream. -/
inductive WireItem where
  | json (j : Json)
  | newline

/-- The writes performed by `sendRequest` and whether the stream was
closed afterwards. -/
structure SendResult where
  written : List WireItem
  closed : Bool

/-- `sendRequest`: marshal the request, write it, write a newline, then
close the stream. `writeOk = false` models a failing write (broken
pipe), after which nothing further happens. -/
def sendRequest (req : ModuleRequest) (writeOk : Bool) : Except String SendResult :=
  if writeOk then .ok ⟨[.json req.ToJSON, .newline], true⟩
  else .error "write failed"

/-! ## Timed read loop

The read loops check the deadline with a Go
`select` (a `<-ctx.Done()` case against a `default` case) at the top
of each iteration; the `default` branch performs a *blocking*
`reader.ReadString` which is not interrupted by the context.  The time
model makes that explicit: a line carries its arrival time, a blocking
read advances the clock to that arrival time (or to `eofTime` when the
stream is exhausted), and the deadline is consulted only where the Go
code consults `ctx.Done()`. `content = none` models a line that is not
valid JSON, so both unmarshals fail on it. -/

/-- A line of child output: its arrival time and its parsed content
(`none` when the text is not valid JSON). -/
structure TimedLine where
  arrival : Int
  content : Option Json

/-- How a read loop finished, with the clock value at that point.
`blocked` records that the loop is stuck forever in a channel send
(the Go code never returns in that case). -/
inductive ReadOutcome where
  | response (resp : ModuleResponse) (t : Int)
  | timeout (t : Int)
  | eofError (t : Int)
  | parseError (t : Int)
  | blocked (t : Int)

/-- `readResponse`: a single `select`; when the context is not yet done
it performs one blocking line read, maps `EOF` to the module error and
otherwise unmarshals that one line as the final `ModuleResponse`. -/
def readResponse (deadline now : Int) (lines : List TimedLine) (eofTime : Int) : ReadOutcome :=
  if deadline ≤ now then .timeout now
  else
    match lines with
    | [] => .eofError (max now eofTime)
    | l :: _ =>
      let t := max now l.arrival
      match l.content with
      | none => .parseError t
      | some j =>
        match ModuleResponseFromJSON j with
        | .ok resp => .response resp t
        | .error _ => .parseError t

/-- The mutable state of `readResponseWithProgress`: the clock, the
free capacity left in the progress channel (no consumer is draining
it), and the events delivered so far, each with its delivery time. -/
structure WPState where
  now : Int
  sinkFree : Nat
  delivered : List (Int × ProgressEvent)

/-- A finished run of `readResponseWithProgress`: its outcome and the
progress events that were delivered to the channel, in order. -/
structure WPRun where
  outcome : ReadOutcome
  delivered : List (Int × ProgressEvent)

/-- The non-progress half of a loop iteration: the line is unmarshalled
as the final `ModuleResponse`; a failed unmarshal returns the parse
error immediately (there is no skip-and-continue). -/
def finishLine (st : WPState) (t : Int) (content : Option Json) : WPRun :=
  match content with
  | none => ⟨.parseError t, st.delivered⟩
  | some j =>
    match ModuleResponseFromJSON j with
    | .ok resp => ⟨.response resp t, st.delivered⟩
    | .error _ => ⟨.parseError t, st.delivered⟩

/-- `readResponseWithProgress`: loop of `select` iterations.  Each line
is first unmarshalled as a `ProgressEvent`; when that succeeds *and*
the event validates, its `Timestamp` is overwritten with the receipt
time and it is sent to the progress channel with a plain (blocking)
channel send, then the loop continues; otherwise the line falls
through to final-response parsing. -/
def readResponseWithProgress (deadline eofTime : Int) :
    WPState → List TimedLine → WPRun
  | st, [] =>
    if deadline ≤ st.now then ⟨.timeout st.now, st.delivered⟩
    else ⟨.eofError (max st.now eofTime), st.delivered⟩
  | st, l :: rest =>
    if deadline ≤ st.now then ⟨.timeout st.now, st.delivered⟩
    else
      let t := max st.now l.arrival
      match l.content with
      | none => finishLine st t none
      | some j =>
        match ProgressEventFromJSON j with
        | .error _ => finishLine st t (some j)
        | .ok p =>
          match p.Validate with
          | .error _ => finishLine st t (some j)
          | .ok _ =>
            let stamped : ProgressEvent :=
              ⟨p.stage, p.current, p.total, p.percentage, p.message, t⟩
            match st.sinkFree with
            | 0 => ⟨.blocked t, st.delivered⟩
            | n + 1 =>
              readResponseWithProgress deadline eofTime
                ⟨t, n, st.delivered ++ [(t, stamped)]⟩ rest

/-! ## The Execute entry points -/

/-- The environment one `Execute` call runs against: whether the module
file is found, whether the launch and the request write succeed, the
free capacity of the caller's progress channel, the child's output
lines and the time its output stream would close. -/
structure ExecEnv where
  moduleFound : Bool
  launchOk : Bool
  writeOk : Bool
  sinkFree : Nat
  lines : List TimedLine
  eofTime : Int
  startNano : Int

/-- An error returned by `Execute`: either a `BridgeError` (possibly
reaching the caller wrapped in a `fmt.Errorf` chain, which preserves
it for `errors.As`) or a plain formatted error. -/
inductive ExecError where
  | bridgeErr (e : BridgeError)
  | plainErr (msg : String)

/-- Everything observable about one `Execute` call besides its result:
process accounting (spawn and kill+wait counts), the process table
while the exchange ran and after the deferred cleanup, the stream the
request was written to and what was written, whether stdin was closed,
the stream responses were read from, the clock when the read phase
finished, and the progress events delivered. -/
structure ExecTrace where
  spawned : Nat
  terminated : Nat
  tableDuring : List String
  tableFinal : List String
  writeTarget : Option StdStream
  written : List WireItem
  stdinClosed : Bool
  readSource : Option StdStream
  finishTime : Int
  delivered : List (Int × ProgressEvent)

/-- Trace of a call that failed before a process was launched. -/
def noLaunchTrace (table : List String) : ExecTrace :=
  ⟨0, 0, table, table, none, [], false, none, 0, []⟩

/-- Trace of a call whose launch succeeded: the deferred cleanup
removed the table entry and performed `Process.Kill` plus `Wait`
exactly once. -/
def launchedTrace (pid : String) (table : List String) (written : List WireItem)
    (closed : Bool) (finishTime : Int) (delivered : List (Int × ProgressEvent)) : ExecTrace :=
  ⟨1, 1, pid :: table, table.filter (fun x => x != pid), some launchPythonProcess.writeSink,
    written, closed, some launchPythonProcess.readSource, finishTime, delivered⟩

/-- Map a terminal `ReadOutcome` (and the subsequent response
validation, for the `response` case) to the result `Execute` returns. -/
def outcomeToResult : ReadOutcome → Except ExecError ModuleResponse
  | .response resp _ =>
    match resp.Validate with
    | .ok _ => .ok resp
    | .error e => .error (.bridgeErr e)
  | .timeout _ => .error (.bridgeErr (ErrModuleTimeout "module execution timed out"))
  | .eofError _ => .error (.bridgeErr (ErrModuleError "module process ended unexpectedly"))
  | .parseError _ => .error (.plainErr "failed to parse response")
  | .blocked _ => .error (.plainErr "blocked forever on progress channel send")

/-- The clock value carried by a `ReadOutcome`. -/
def outcomeTime : ReadOutcome → Int
  | .response _ t => t
  | .timeout t => t
  | .eofError t => t
  | .parseError t => t
  | .blocked t => t

/-- `(*JSONBridge).Execute`: validate the request, find the module,
launch the process, register it in the process table, defer the
cleanup (table delete, kill, wait), send the request, read the single
response line under the deadline, validate the response.  The call
starts at clock 0, so the context deadline is the validated timeout. -/
def Execute (req : ModuleRequest) (module : String) (env : ExecEnv)
    (table : List String) : Except ExecError ModuleResponse × ExecTrace :=
  match req.Validate with
  | .error e => (.error (.bridgeErr e), noLaunchTrace table)
  | .ok vreq =>
    if env.moduleFound = false then
      (.error (.bridgeErr (ErrModuleNotFound ("module " ++ module ++ " not found"))),
        noLaunchTrace table)
    else if env.launchOk = false then
      (.error (.plainErr "failed to launch Python process"), noLaunchTrace table)
    else
      let pid := module ++ "-" ++ toString env.startNano
      match sendRequest vreq env.writeOk with
      | .error _ =>
        (.error (.plainErr "failed to send request"), launchedTrace pid table [] false 0 [])
      | .ok sent =>
        let out := readResponse vreq.timeout 0 env.lines env.eofTime
        (outcomeToResult out,
          launchedTrace pid table sent.written sent.closed (outcomeTime out) [])

/-- `(*JSONBridge).ExecuteWithProgress`: identical to `Execute` except
that the read phase is `readResponseWithProgress` against the caller's
progress channel. -/
def ExecuteWithProgress (req : ModuleRequest) (module : String) (env : ExecEnv)
    (table : List String) : Except ExecError ModuleResponse × ExecTrace :=
  match req.Validate with
  | .error e => (.error (.bridgeErr e), noLaunchTrace table)
  | .ok vreq =>
    if env.moduleFound = false then
      (.error (.bridgeErr (ErrModuleNotFound ("module " ++ module ++ " not found"))),
        noLaunchTrace table)
    else if env.launchOk = false then
      (.error (.plainErr "failed to launch Python process"), noLaunchTrace table)
    else
      let pid := module ++ "-" ++ toString env.startNano
      match sendRequest vreq env.writeOk with
      | .error _ =>
        (.error (.plainErr "failed to send request"), launchedTrace pid table [] false 0 [])
      | .ok sent =>
        let run := readResponseWithProgress vreq.timeout env.eofTime
          ⟨0, env.sinkFree, []⟩ env.lines
        (outcomeToResult run.outcome,
          launchedTrace pid table sent.written sent.closed (outcomeTime run.outcome)
            run.delivered)

/-! ## Process termination -/

/-- The observable status of the child process. -/
inductive ProcStatus where
  | running
  | exited
deriving DecidableEq

/-- The deferred cleanup's effect on the process: `Process.Kill`
followed by `Wait`.  Killing an already-dead process returns
`os.ErrProcessDone`, which the code ignores, so the operation is a
no-op there. -/
def terminate : ProcStatus → ProcStatus := fun _ => .exited

/-! ## Plugin registry (`pkg/plugin`, file `part_004`) -/

/-- One immediate entry of the plugins directory, as `loadModule` sees
it: `manifestFile` is `none` when `manifest.json` does not exist and
`some none` when it exists but is not valid JSON; `mainFile` is the
content of `__main__.py` when that file exists. -/
structure ModuleDirEntry where
  name : String
  isDir : Bool
  manifestFile : Option (Option Json)
  mainFile : Option String

/-- `strings.Contains(version, ".")`: the version string has at least
one dot character. -/
def versionHasDot (version : String) : Bool :=
  version.data.any (fun c => c == '.')

/-- `validateManifest`: checks in source order. -/
def validateManifest (m : ModuleManifest) : Except String Unit :=
  if m.name = "" then .error "module name is required"
  else if m.version = "" then .error "module version is required"
  else if m.commands = [] then .error "module must define at least one command"
  else if versionHasDot m.version = false then
    .error "invalid version format, expected semantic versioning"
  else .ok ()

/-- `readManifest`: read the file, unmarshal it, validate it. -/
def readManifest (file : Option Json) : Except String ModuleManifest :=
  match file with
  | none => .error "failed to parse manifest JSON"
  | some j =>
    match ModuleManifestFromJSON j with
    | .error msg => .error ("failed to parse manifest JSON: " ++ msg)
    | .ok manifest =>
      match validateManifest manifest with
      | .error msg => .error msg
      | .ok _ => .ok manifest

/-- `validatePythonSyntax`: the entry point must be readable and
non-empty. -/
def validatePythonSyntax (content : String) : Except String Unit :=
  if content = "" then .error "empty file" else .ok ()

/-- `loadModule`: require `manifest.json`, read and validate the
manifest, require `__main__.py`, run `validateModule` (re-checks the
two files, shallow-checks the entry point; dependency problems only
warn), then register.  Returns the manifest that gets registered. -/
def loadModule (entry : ModuleDirEntry) : Except String ModuleManifest :=
  match entry.manifestFile with
  | none => .error "manifest.json not found"
  | some file =>
    match readManifest file with
    | .error msg => .error ("failed to read manifest: " ++ msg)
    | .ok manifest =>
      match entry.mainFile with
      | none => .error "__main__.py not found"
      | some content =>
        match validatePythonSyntax content with
        | .error msg => .error ("module validation failed: " ++ msg)
        | .ok _ => .ok manifest

/-- `LoadPlugins` over an already-listed plugins directory: skip
non-directories, attempt `loadModule` on each subdirectory, log and
skip failures, count and register successes.  Returns the loaded count
and the registrations (directory name to manifest) in scan order; the
function itself never fails because of one bad module. -/
def LoadPlugins (entries : List ModuleDirEntry) : Nat × List (String × ModuleManifest) :=
  entries.foldl (fun acc entry =>
    if entry.isDir = false then acc
    else
      match loadModule entry with
      | .error _ => acc
      | .ok manifest => (acc.1 + 1, acc.2 ++ [(entry.name, manifest)])) (0, [])

/-! ## Derived predicates used by the statements -/

/-- Does a wire line unmarshal as a `ProgressEvent` that also passes
`Validate`? -/
def decodesAsValidProgress (content : Option Json) : Bool :=
  match content with
  | none => false
  | some j =>
    match ProgressEventFromJSON j with
    | .error _ => false
    | .ok p =>
      match p.Validate with
      | .ok _ => true
      | .error _ => false

/-- Does a wire line unmarshal as a `ModuleResponse`? -/
def decodesAsResponse (content : Option Json) : Bool :=
  match content with
  | none => false
  | some j =>
    match ModuleResponseFromJSON j with
    | .ok _ => true
    | .error _ => false

/-- What the bridge promises about an event it delivered to the
progress sink: it passed `Validate`, it satisfies the validity
invariant, and its timestamp is the receipt time recorded with it. -/
def DeliveredOk (te : Int × ProgressEvent) : Prop :=
  te.2.Validate = .ok () ∧ te.2.stage ≠ "" ∧ 0 ≤ te.2.current ∧ te.2.current ≤ te.2.total ∧
  0 ≤ te.2.percentage ∧ te.2.percentage ≤ 100 ∧ te.2.timestamp = te.1

/-! ## Concrete fixtures for witnesses and counterexamples -/

def sampleRequest : ModuleRequest := ⟨"download", [], "access-token", "device-token", 300⟩

def requestTimeout1 : ModuleRequest := ⟨"download", [], "access-token", "device-token", 1⟩

def sampleResponse : ModuleResponse := ⟨true, [], "", none⟩

def sampleProgress : ProgressEvent := ⟨"downloading", 1, 2, 50, "halfway", 0⟩

def sampleManifestJson : Json :=
  .obj [("name", .str "youtube"), ("version", .str "1.0"), ("commands", .arr [.str "download"])]

def sampleManifest : ModuleManifest := ⟨"youtube", "1.0", "", ["download"], [], "", ""⟩

def goodEntryA : ModuleDirEntry := ⟨"youtube", true, some (some sampleManifestJson), some "main"⟩

def goodEntryB : ModuleDirEntry := ⟨"vimeo", true, some (some sampleManifestJson), some "main"⟩

def badEntry : ModuleDirEntry := ⟨"broken", true, none, some "main"⟩

/-- A module that answers immediately with a valid success response. -/
def happyEnv : ExecEnv := ⟨true, true, true, 100, [⟨0, some sampleResponse.ToJSON⟩], 0, 0⟩

/-- A module that sleeps until time 10 before writing its (valid) final
response, against a deadline of 1. -/
def lateResponseEnv : ExecEnv := ⟨true, true, true, 100, [⟨10, some sampleResponse.ToJSON⟩], 10, 0⟩

/-- A module that emits one valid progress event and then a valid final
response. -/
def progressThenResponseEnv : ExecEnv :=
  ⟨true, true, true, 100, [⟨0, some sampleProgress.ToJSON⟩, ⟨1, some sampleResponse.ToJSON⟩], 1, 0⟩

/-- A line that unmarshals as a `ProgressEvent` (`current = 3`,
`total = 2`) but fails `Validate`. -/
def invalidProgressJson : Json :=
  .obj [("stage", .str "x"), ("current", .num (Rat.ofInt 3)), ("total", .num (Rat.ofInt 2))]

/-- The request as `(*ModuleRequest).Validate` leaves it on success:
the timeout is defaulted to 300 when non-positive. -/
def validatedRequest (r : ModuleRequest) : ModuleRequest :=
  if r.timeout ≤ 0 then ⟨r.command, r.args, r.authToken, r.deviceToken, 300⟩ else r

/-! ## Helper lemmas -/

theorem requestRoundTrip (r : ModuleRequest) : ModuleRequestFromJSON r.ToJSON = .ok r := rfl

theorem progressRoundTrip (p : ProgressEvent) : ProgressEventFromJSON p.ToJSON = .ok p := rfl

theorem responseRoundTrip (r : ModuleResponse) : ModuleResponseFromJSON r.ToJSON = .ok r := by
  obtain ⟨s, d, e, pr⟩ := r
  cases pr <;> rfl

theorem validate_eq_ok (r : ModuleRequest) (h : r.command ≠ "") :
    r.Validate = .ok (validatedRequest r) := by
  unfold ModuleRequest.Validate validatedRequest
  rw [if_neg h]
  split <;> simp [*]

theorem validatedRequest_timeout_pos (r : ModuleRequest) : 0 < (validatedRequest r).timeout := by
  unfold validatedRequest
  split
  · norm_num
  · omega

theorem filter_bne_eq_self (table : List String) (pid : String) (h : pid ∉ table) :
    table.filter (fun x => x != pid) = table := by
  apply List.filter_eq_self.mpr
  intro x hx
  simp only [bne_iff_ne, ne_eq]
  rintro rfl
  exact h hx

theorem Execute_launched (req : ModuleRequest) (module : String) (env : ExecEnv)
    (table : List String) (hcmd : req.command ≠ "") (hfound : env.moduleFound = true)
    (hlaunch : env.launchOk = true) (hwrite : env.writeOk = true) :
    Execute req module env table =
      (outcomeToResult (readResponse (validatedRequest req).timeout 0 env.lines env.eofTime),
        launchedTrace (module ++ "-" ++ toString env.startNano) table
          [.json (validatedRequest req).ToJSON, .newline] true
          (outcomeTime (readResponse (validatedRequest req).timeout 0 env.lines env.eofTime))
          []) := by
  unfold Execute
  rw [validate_eq_ok req hcmd]
  simp [hfound, hlaunch, sendRequest, hwrite]

theorem Execute_sendFail (req : ModuleRequest) (module : String) (env : ExecEnv)
    (table : List String) (hcmd : req.command ≠ "") (hfound : env.moduleFound = true)
    (hlaunch : env.launchOk = true) (hwrite : env.writeOk = false) :
    Execute req module env table =
      (.error (.plainErr "failed to send request"),
        launchedTrace (module ++ "-" ++ toString env.startNano) table [] false 0 []) := by
  unfold Execute
  rw [validate_eq_ok req hcmd]
  simp [hfound, hlaunch, sendRequest, hwrite]

theorem ExecuteWithProgress_launched (req : ModuleRequest) (module : String) (env : ExecEnv)
    (table : List String) (hcmd : req.command ≠ "") (hfound : env.moduleFound = true)
    (hlaunch : env.launchOk = true) (hwrite : env.writeOk = true) :
    ExecuteWithProgress req module env table =
      (outcomeToResult (readResponseWithProgress (validatedRequest req).timeout env.eofTime
          ⟨0, env.sinkFree, []⟩ env.lines).outcome,
        launchedTrace (module ++ "-" ++ toString env.startNano) table
          [.json (validatedRequest req).ToJSON, .newline] true
          (outcomeTime (readResponseWithProgress (validatedRequest req).timeout env.eofTime
            ⟨0, env.sinkFree, []⟩ env.lines).outcome)
          (readResponseWithProgress (validatedRequest req).timeout env.eofTime
            ⟨0, env.sinkFree, []⟩ env.lines).delivered) := by
  unfold ExecuteWithProgress
  rw [validate_eq_ok req hcmd]
  simp [hfound, hlaunch, sendRequest, hwrite]

theorem ExecuteWithProgress_sendFail (req : ModuleRequest) (module : String) (env : ExecEnv)
    (table : List String) (hcmd : req.command ≠ "") (hfound : env.moduleFound = true)
    (hlaunch : env.launchOk = true) (hwrite : env.writeOk = false) :
    ExecuteWithProgress req module env table =
      (.error (.plainErr "failed to send request"),
        launchedTrace (module ++ "-" ++ toString env.startNano) table [] false 0 []) := by
  unfold ExecuteWithProgress
  rw [validate_eq_ok req hcmd]
  simp [hfound, hlaunch, sendRequest, hwrite]

theorem finishLine_delivered (st : WPState) (t : Int) (c : Option Json) :
    (finishLine st t c).delivered = st.delivered := by
  cases c with
  | none => rfl
  | some j => cases hr : ModuleResponseFromJSON j <;> simp [finishLine, hr]

theorem progressValidate_ok_iff (p : ProgressEvent) :
    p.Validate = .ok () ↔
      p.stage ≠ "" ∧ 0 ≤ p.total ∧ 0 ≤ p.current ∧ p.current ≤ p.total ∧
      0 ≤ p.percentage ∧ p.percentage ≤ 100 := by
  unfold ProgressEvent.Validate
  split_ifs with h1 h2 h3 h4 h5
  · refine ⟨fun h => by simp at h, fun hr => absurd h1 hr.1⟩
  · refine ⟨fun h => by simp at h, fun hr => absurd hr.2.1 (by omega)⟩
  · refine ⟨fun h => by simp at h, fun hr => absurd hr.2.2.1 (by omega)⟩
  · refine ⟨fun h => by simp at h, fun hr => absurd hr.2.2.2.1 (by omega)⟩
  · refine ⟨fun h => by simp at h, fun hr => ?_⟩
    rcases h5 with h5 | h5
    · exact absurd hr.2.2.2.2.1 (by linarith)
    · exact absurd hr.2.2.2.2.2 (by linarith)
  · push_neg at h5
    exact ⟨fun _ => ⟨h1, by omega, by omega, by omega, h5.1, h5.2⟩, fun _ => rfl⟩

theorem readLoop_delivered_ok (deadline eofTime : Int) :
    ∀ (lines : List TimedLine) (st : WPState),
      (∀ te ∈ st.delivered, DeliveredOk te) →
      ∀ te ∈ (readResponseWithProgress deadline eofTime st lines).delivered, DeliveredOk te := by
  intro lines
  induction lines with
  | nil =>
    intro st hst te hte
    simp only [readResponseWithProgress] at hte
    by_cases hd : deadline ≤ st.now
    · rw [if_pos hd] at hte
      exact hst te hte
    · rw [if_neg hd] at hte
      exact hst te hte
  | cons l rest ih =>
    intro st hst te hte
    simp only [readResponseWithProgress] at hte
    by_cases hd : deadline ≤ st.now
    · rw [if_pos hd] at hte
      exact hst te hte
    · rw [if_neg hd] at hte
      cases hc : l.content with
      | none =>
        simp only [hc, finishLine_delivered] at hte
        exact hst te hte
      | some j =>
        simp only [hc] at hte
        cases hp : ProgressEventFromJSON j with
        | error e =>
          simp only [hp, finishLine_delivered] at hte
          exact hst te hte
        | ok p =>
          simp only [hp] at hte
          cases hv : p.Validate with
          | error e =>
            simp only [hv, finishLine_delivered] at hte
            exact hst te hte
          | ok u =>
            simp only [hv] at hte
            cases hfree : st.sinkFree with
            | zero =>
              simp only [hfree] at hte
              exact hst te hte
            | succ n =>
              simp only [hfree] at hte
              refine ih ⟨max st.now l.arrival, n,
                st.delivered ++ [(max st.now l.arrival,
                  ⟨p.stage, p.current, p.total, p.percentage, p.message,
                    max st.now l.arrival⟩)]⟩ ?_ te hte
              intro te2 hte2
              rcases List.mem_append.mp hte2 with h | h
              · exact hst te2 h
              · have he : te2 = (max st.now l.arrival,
                    ⟨p.stage, p.current, p.total, p.percentage, p.message,
                      max st.now l.arrival⟩) := List.mem_singleton.mp h
                subst he
                have hv2 : p.Validate = .ok () := by
                  cases u
                  exact hv
                have hok := (progressValidate_ok_iff p).mp hv2
                refine ⟨hv2, hok.1, hok.2.2.1, hok.2.2.2.1, hok.2.2.2.2.1,
                  hok.2.2.2.2.2, rfl⟩

/-! ## Claims -/

/-- C1: for every `Execute` or `ExecuteWithProgress` call whose launch
step succeeds, exactly one child process is spawned and exactly one is
killed-and-waited-for before the call returns, on every exit path
(success, response validation failure, malformed output, EOF, elapsed
deadline, failed request write); the call's entry is present in the
bridge's process table during the exchange and removed before the call
returns; and terminating an already-dead process is a no-op
(`terminate` is idempotent). -/
theorem C1_process_lifecycle (req : ModuleRequest) (module : String) (env : ExecEnv)
    (table : List String) (hcmd : req.command ≠ "") (hfound : env.moduleFound = true)
    (hlaunch : env.launchOk = true)
    (hpid : (module ++ "-" ++ toString env.startNano) ∉ table) :
    ((Execute req module env table).2.spawned = 1 ∧
      (Execute req module env table).2.terminated = 1 ∧
      (Execute req module env table).2.tableDuring =
        (module ++ "-" ++ toString env.startNano) :: table ∧
      (Execute req module env table).2.tableFinal = table) ∧
    ((ExecuteWithProgress req module env table).2.spawned = 1 ∧
      (ExecuteWithProgress req module env table).2.terminated = 1 ∧
      (ExecuteWithProgress req module env table).2.tableDuring =
        (module ++ "-" ++ toString env.startNano) :: table ∧
      (ExecuteWithProgress req module env table).2.tableFinal = table) ∧
    (∀ s : ProcStatus, terminate (terminate s) = terminate s) := by
  have hfil : table.filter (fun x => x != (module ++ "-" ++ toString env.startNano)) = table :=
    filter_bne_eq_self table _ hpid
  refine ⟨?_, ?_, fun s => rfl⟩
  · cases hw : env.writeOk
    · rw [Execute_sendFail req module env table hcmd hfound hlaunch hw]
      simp [launchedTrace, hfil]
    · rw [Execute_launched req module env table hcmd hfound hlaunch hw]
      simp [launchedTrace, hfil]
  · cases hw : env.writeOk
    · rw [ExecuteWithProgress_sendFail req module env table hcmd hfound hlaunch hw]
      simp [launchedTrace, hfil]
    · rw [ExecuteWithProgress_launched req module env table hcmd hfound hlaunch hw]
      simp [launchedTrace, hfil]

/-- Witness for C1 at a concrete call. -/
theorem C1_witness :
    ((Execute sampleRequest "youtube" happyEnv []).2.spawned = 1 ∧
      (Execute sampleRequest "youtube" happyEnv []).2.terminated = 1 ∧
      (Execute sampleRequest "youtube" happyEnv []).2.tableDuring =
        ("youtube" ++ "-" ++ toString happyEnv.startNano) :: [] ∧
      (Execute sampleRequest "youtube" happyEnv []).2.tableFinal = []) ∧
    ((ExecuteWithProgress sampleRequest "youtube" happyEnv []).2.spawned = 1 ∧
      (ExecuteWithProgress sampleRequest "youtube" happyEnv []).2.terminated = 1 ∧
      (ExecuteWithProgress sampleRequest "youtube" happyEnv []).2.tableDuring =
        ("youtube" ++ "-" ++ toString happyEnv.startNano) :: [] ∧
      (ExecuteWithProgress sampleRequest "youtube" happyEnv []).2.tableFinal = []) ∧
    (∀ s : ProcStatus, terminate (terminate s) = terminate s) :=
  C1_process_lifecycle sampleRequest "youtube" happyEnv [] (by decide) rfl rfl (by simp)

/-- C2: the deadline is *not* enforced while a read is pending.  With a
deadline of 1 and a module that writes its valid final response at
time 10, both `Execute` and `ExecuteWithProgress` block in the pending
read until time 10 and then return the module's response — they do not
return `ModuleTimeout` at time 1 with no data, because the Go
`select`/`default` construct consults `ctx.Done()` only between reads
and the blocking `ReadString` is never interrupted. -/
theorem C2_pending_read_not_aborted :
    (validatedRequest requestTimeout1).timeout = 1 ∧
    (ExecuteWithProgress requestTimeout1 "youtube" lateResponseEnv []).1 = .ok sampleResponse ∧
    (ExecuteWithProgress requestTimeout1 "youtube" lateResponseEnv []).2.finishTime = 10 ∧
    (Execute requestTimeout1 "youtube" lateResponseEnv []).1 = .ok sampleResponse ∧
    (Execute requestTimeout1 "youtube" lateResponseEnv []).2.finishTime = 10 :=
  ⟨rfl, rfl, rfl, rfl, rfl⟩

/-- C3 counterexample: a line that unmarshals as neither message kind
(here: syntactically invalid JSON at time 0) makes the read loop
return a parse error at once — the following valid final response is
never reached, so such a line is *not* skipped. -/
theorem C3_counterexample :
    readResponseWithProgress 300 5 ⟨0, 100, []⟩
      [⟨0, none⟩, ⟨1, some sampleResponse.ToJSON⟩] = ⟨.parseError 0, []⟩ := rfl

/-- C3 (amended): a line that decodes as neither a valid
`ProgressEvent` nor a `ModuleResponse` is terminal: the read loop
returns a parse error at that line instead of skipping it; only lines
that validate as progress events are consumed non-terminally. -/
theorem C3_malformed_line_terminal (deadline eofTime : Int) (st : WPState)
    (l : TimedLine) (rest : List TimedLine) (hnd : ¬ deadline ≤ st.now)
    (hprog : decodesAsValidProgress l.content = false)
    (hresp : decodesAsResponse l.content = false) :
    readResponseWithProgress deadline eofTime st (l :: rest) =
      ⟨.parseError (max st.now l.arrival), st.delivered⟩ := by
  simp only [readResponseWithProgress]
  rw [if_neg hnd]
  simp only [decodesAsValidProgress, decodesAsResponse] at hprog hresp
  cases hc : l.content with
  | none => simp [hc, finishLine]
  | some j =>
    simp only [hc] at hprog hresp ⊢
    cases hp : ProgressEventFromJSON j with
    | error e =>
      simp only [hp]
      cases hr : ModuleResponseFromJSON j with
      | ok r =>
        simp only [hr] at hresp
        exact Bool.noConfusion hresp
      | error e2 => simp [finishLine, hr]
    | ok p =>
      simp only [hp] at hprog ⊢
      cases hv : p.Validate with
      | ok u =>
        simp only [hv] at hprog
        exact Bool.noConfusion hprog
      | error e3 =>
        simp only [hv]
        cases hr : ModuleResponseFromJSON j with
        | ok r =>
          simp only [hr] at hresp
          exact Bool.noConfusion hresp
        | error e2 => simp [finishLine, hr]

/-- Witness for C3's amended statement at a concrete malformed line. -/
theorem C3_witness :
    readResponseWithProgress 300 5 ⟨0, 100, []⟩ [⟨0, none⟩] = ⟨.parseError 0, []⟩ :=
  C3_malformed_line_terminal 300 5 ⟨0, 100, []⟩ ⟨0, none⟩ [] (by decide) rfl rfl

/-- C4 counterexample: with a full progress sink (no free capacity, no
consumer), a valid progress event at time 2 leaves the read loop
blocked forever in the channel send: the event is neither dropped nor
delivered after a bounded wait, and the final response at time 3 is
never read. -/
theorem C4_counterexample :
    readResponseWithProgress 300 0 ⟨0, 0, []⟩
      [⟨2, some sampleProgress.ToJSON⟩, ⟨3, some sampleResponse.ToJSON⟩] =
      ⟨.blocked 2, []⟩ := rfl

/-- C4 (amended): the handoff to the progress sink is a plain blocking
channel send: when the sink has no free capacity and no consumer
receives, the read loop blocks indefinitely on delivery — events are
not dropped and there is no bounded wait. -/
theorem C4_blocking_handoff (deadline eofTime : Int) (st : WPState) (l : TimedLine)
    (rest : List TimedLine) (j : Json) (p : ProgressEvent)
    (hnd : ¬ deadline ≤ st.now) (hc : l.content = some j)
    (hp : ProgressEventFromJSON j = .ok p) (hv : p.Validate = .ok ())
    (hfree : st.sinkFree = 0) :
    readResponseWithProgress deadline eofTime st (l :: rest) =
      ⟨.blocked (max st.now l.arrival), st.delivered⟩ := by
  simp only [readResponseWithProgress]
  rw [if_neg hnd]
  simp only [hc, hp, hv, hfree]

/-- Witness for C4's amended statement at a concrete full-sink state. -/
theorem C4_witness :
    readResponseWithProgress 300 9 ⟨5, 0, []⟩
      [⟨7, some sampleProgress.ToJSON⟩, ⟨8, some sampleResponse.ToJSON⟩] =
      ⟨.blocked 7, []⟩ :=
  C4_blocking_handoff 300 9 ⟨5, 0, []⟩ ⟨7, some sampleProgress.ToJSON⟩
    [⟨8, some sampleResponse.ToJSON⟩] sampleProgress.ToJSON sampleProgress
    (by decide) rfl (progressRoundTrip sampleProgress) rfl rfl

/-- C5 counterexample: the stream the bridge reads responses from is
the child's standard *error*, not its standard output: the launcher
returns the stderr pipe as the read end. -/
theorem C5_counterexample :
    (Execute sampleRequest "youtube" happyEnv []).2.readSource = some StdStream.stderr ∧
    some StdStream.stderr ≠ some StdStream.stdout :=
  ⟨rfl, by decide⟩

/-- C5 (amended): for every exchange, the encoded request is written as
a single JSON line to the child's standard input, which is then
closed; and every progress or response line is read from the child's
standard *error* stream (the launcher wires the stdin pipe as the
write end and returns the stderr pipe — not stdout — as the read
end). -/
theorem C5_wire_streams (req : ModuleRequest) (module : String) (env : ExecEnv)
    (table : List String) (hcmd : req.command ≠ "") (hfound : env.moduleFound = true)
    (hlaunch : env.launchOk = true) (hwrite : env.writeOk = true) :
    ((Execute req module env table).2.writeTarget = some StdStream.stdin ∧
      (Execute req module env table).2.written =
        [.json (validatedRequest req).ToJSON, .newline] ∧
      (Execute req module env table).2.stdinClosed = true ∧
      (Execute req module env table).2.readSource = some StdStream.stderr) ∧
    ((ExecuteWithProgress req module env table).2.writeTarget = some StdStream.stdin ∧
      (ExecuteWithProgress req module env table).2.written =
        [.json (validatedRequest req).ToJSON, .newline] ∧
      (ExecuteWithProgress req module env table).2.stdinClosed = true ∧
      (ExecuteWithProgress req module env table).2.readSource = some StdStream.stderr) := by
  rw [Execute_launched req module env table hcmd hfound hlaunch hwrite,
    ExecuteWithProgress_launched req module env table hcmd hfound hlaunch hwrite]
  simp [launchedTrace, launchPythonProcess]

/-- Witness for C5's amended statement at a concrete call. -/
theorem C5_witness :
    ((Execute sampleRequest "youtube" happyEnv []).2.writeTarget = some StdStream.stdin ∧
      (Execute sampleRequest "youtube" happyEnv []).2.written =
        [.json (validatedRequest sampleRequest).ToJSON, .newline] ∧
      (Execute sampleRequest "youtube" happyEnv []).2.stdinClosed = true ∧
      (Execute sampleRequest "youtube" happyEnv []).2.readSource = some StdStream.stderr) ∧
    ((ExecuteWithProgress sampleRequest "youtube" happyEnv []).2.writeTarget =
        some StdStream.stdin ∧
      (ExecuteWithProgress sampleRequest "youtube" happyEnv []).2.written =
        [.json (validatedRequest sampleRequest).ToJSON, .newline] ∧
      (ExecuteWithProgress sampleRequest "youtube" happyEnv []).2.stdinClosed = true ∧
      (ExecuteWithProgress sampleRequest "youtube" happyEnv []).2.readSource =
        some StdStream.stderr) :=
  C5_wire_streams sampleRequest "youtube" happyEnv [] (by decide) rfl rfl rfl

/-- C6 counterexample: a module that emits one valid progress event and
then a valid final response makes plain `Execute` fail with
`INVALID_RESPONSE`: the first line (the progress event) is parsed as
the final response (its unknown fields are ignored, leaving a zero
response) and then fails validation — progress events are not
drained. -/
theorem C6_counterexample :
    (Execute sampleRequest "youtube" progressThenResponseEnv []).1 =
      .error (.bridgeErr ⟨"INVALID_RESPONSE", "error message required for failed response"⟩) :=
  rfl

/-- C6 (amended): plain `Execute` reads exactly one line and parses it
as the final response.  It returns the module's final response only
when no progress lines precede it (zero progress events); any
preceding progress event is itself parsed as the response and makes
the call fail, because `readResponse` has no drain loop. -/
theorem C6_response_only_first_line (req : ModuleRequest) (module : String) (env : ExecEnv)
    (table : List String) (resp : ModuleResponse) (arrival : Int)
    (hcmd : req.command ≠ "") (hfound : env.moduleFound = true)
    (hlaunch : env.launchOk = true) (hwrite : env.writeOk = true)
    (hlines : env.lines = [⟨arrival, some resp.ToJSON⟩])
    (hvalid : resp.Validate = .ok ()) :
    (Execute req module env table).1 = .ok resp := by
  rw [Execute_launched req module env table hcmd hfound hlaunch hwrite]
  have hpos := validatedRequest_timeout_pos req
  simp only [hlines]
  unfold readResponse
  rw [if_neg (by omega : ¬ (validatedRequest req).timeout ≤ 0)]
  simp [outcomeToResult, responseRoundTrip resp, hvalid]

/-- Witness for C6's amended statement at a concrete call. -/
theorem C6_witness :
    (Execute sampleRequest "youtube" happyEnv []).1 = .ok sampleResponse :=
  C6_response_only_first_line sampleRequest "youtube" happyEnv [] sampleResponse 0
    (by decide) rfl rfl rfl rfl rfl

/-- C7: a `ModuleResponse` with `success = false` and an empty `error`
fails `Validate` with an `INVALID_RESPONSE` error, and a
`ProgressEvent` with percentage outside `[0, 100]`, or negative
`current`, or negative `total`, or `current > total`, fails `Validate`
with an `INVALID_PROGRESS` error. -/
theorem C7_validate_failures :
    (∀ r : ModuleResponse, r.success = false → r.error = "" →
      errCode r.Validate = some "INVALID_RESPONSE") ∧
    (∀ p : ProgressEvent,
      p.percentage < 0 ∨ 100 < p.percentage ∨ p.current < 0 ∨ p.total < 0 ∨
        p.total < p.current →
      errCode p.Validate = some "INVALID_PROGRESS") := by
  constructor
  · intro r hs he
    unfold ModuleResponse.Validate
    rw [if_pos ⟨hs, he⟩]
    rfl
  · intro p h
    unfold ProgressEvent.Validate
    split_ifs with h1 h2 h3 h4 h5 <;> try rfl
    exfalso
    push_neg at h5
    rcases h with h | h | h | h | h
    · linarith [h5.1]
    · linarith [h5.2]
    · omega
    · omega
    · omega

/-- Witness for C7 at concrete invalid messages. -/
theorem C7_witness :
    errCode (ModuleResponse.Validate ⟨false, [], "", none⟩) = some "INVALID_RESPONSE" ∧
    errCode (ProgressEvent.Validate ⟨"stage", 3, 2, 50, "", 0⟩) = some "INVALID_PROGRESS" :=
  ⟨C7_validate_failures.1 ⟨false, [], "", none⟩ rfl rfl,
    C7_validate_failures.2 ⟨"stage", 3, 2, 50, "", 0⟩
      (Or.inr (Or.inr (Or.inr (Or.inr (by decide)))))⟩

/-- C8: loading a modules directory is best-effort: a subdirectory with
a missing manifest is skipped while the other, valid modules are still
registered — a scan over one bad and two valid subdirectories
registers exactly the two valid modules (count 2) and never fails the
whole load. -/
theorem C8_load_best_effort (bad g1 g2 : ModuleDirEntry) (m1 m2 : ModuleManifest)
    (hbdir : bad.isDir = true) (hbman : bad.manifestFile = none)
    (h1dir : g1.isDir = true) (h2dir : g2.isDir = true)
    (h1 : loadModule g1 = .ok m1) (h2 : loadModule g2 = .ok m2) :
    LoadPlugins [bad, g1, g2] = (2, [(g1.name, m1), (g2.name, m2)]) := by
  have hbad : loadModule bad = .error "manifest.json not found" := by
    unfold loadModule
    rw [hbman]
  simp [LoadPlugins, hbdir, h1dir, h2dir, hbad, h1, h2]

/-- Witness for C8 at a concrete directory scan. -/
theorem C8_witness :
    LoadPlugins [badEntry, goodEntryA, goodEntryB] =
      (2, [("youtube", sampleManifest), ("vimeo", sampleManifest)]) :=
  C8_load_best_effort badEntry goodEntryA goodEntryB sampleManifest sampleManifest
    rfl rfl rfl rfl rfl rfl

/-- C9: serializing any `ModuleRequest`, `ModuleResponse` or
`ProgressEvent` with `ToJSON` and deserializing the result with the
corresponding `FromJSON` function yields the original value. -/
theorem C9_roundtrip :
    (∀ r : ModuleRequest, ModuleRequestFromJSON r.ToJSON = .ok r) ∧
    (∀ r : ModuleResponse, ModuleResponseFromJSON r.ToJSON = .ok r) ∧
    (∀ p : ProgressEvent, ProgressEventFromJSON p.ToJSON = .ok p) :=
  ⟨requestRoundTrip, responseRoundTrip, progressRoundTrip⟩

/-- C10: every progress event `readResponseWithProgress` delivers to
the sink passed `Validate` (non-empty stage, `0 ≤ current ≤ total`,
percentage within `[0, 100]`) and carries the receipt time as its
timestamp; and a line that parses as a `ProgressEvent` but fails
validation is never delivered — the iteration falls through to
final-response parsing. -/
theorem C10_sink_invariant :
    (∀ (deadline eofTime now : Int) (free : Nat) (lines : List TimedLine),
      ∀ te ∈ (readResponseWithProgress deadline eofTime ⟨now, free, []⟩ lines).delivered,
        DeliveredOk te) ∧
    (∀ (deadline eofTime : Int) (st : WPState) (l : TimedLine) (rest : List TimedLine)
        (j : Json) (p : ProgressEvent) (e : BridgeError),
      ¬ deadline ≤ st.now → l.content = some j → ProgressEventFromJSON j = .ok p →
      p.Validate = .error e →
      readResponseWithProgress deadline eofTime st (l :: rest) =
        finishLine st (max st.now l.arrival) (some j)) := by
  constructor
  · intro deadline eofTime now free lines te hte
    exact readLoop_delivered_ok deadline eofTime lines ⟨now, free, []⟩ (by simp) te hte
  · intro deadline eofTime st l rest j p e hnd hc hp hv
    simp only [readResponseWithProgress]
    rw [if_neg hnd]
    simp only [hc, hp, hv]

/-- Witness for C10 at a concrete delivered event and a concrete
invalid progress line. -/
theorem C10_witness :
    DeliveredOk (0, ⟨"downloading", 1, 2, 50, "halfway", 0⟩) ∧
    readResponseWithProgress 300 9 ⟨0, 100, []⟩ [⟨0, some invalidProgressJson⟩] =
      finishLine ⟨0, 100, []⟩ 0 (some invalidProgressJson) :=
  ⟨C10_sink_invariant.1 300 1 0 100
      [⟨0, some sampleProgress.ToJSON⟩, ⟨1, some sampleResponse.ToJSON⟩]
      (0, ⟨"downloading", 1, 2, 50, "halfway", 0⟩) (by decide),
    C10_sink_invariant.2 300 9 ⟨0, 100, []⟩ ⟨0, some invalidProgressJson⟩ []
      invalidProgressJson ⟨"x", 3, 2, 0, "", 0⟩
      (ErrInvalidProgress "current cannot exceed total") (by decide) rfl rfl rfl⟩

end Converso
